import Mathlib

/-!
Verification of the `BufferLine` unit of `cosmic-text` (`src/buffer_line.rs`):
the per-line cache-invalidation state machine, the append/split span-splicing
algorithms, and the pooled-reset discipline.

The `BufferLine` aggregate and all of its methods are translated directly from
`src/buffer_line.rs`.  The collaborators that the file uses but does not
define (`Cached`, `AttrsList`, the shaping and layout engines, and the small
value enums) are modelled from the specification's contracts for them.
-/

namespace CosmicText

/-- Modelled from the spec: the three-state cache slot `Cached<T>`
(`CacheSlot<T>` in the spec): `Empty` (never produced), `Retained` (a previous
artifact's backing storage held for reuse, content stale), `Valid` (current,
usable artifact). -/
inductive Cached (α : Type) : Type where
  | Empty : Cached α
  | Retained : α → Cached α
  | Valid : α → Cached α
deriving DecidableEq, Repr

namespace Cached

/-- Modelled from the spec: `mark_stale` (`set_unused` at the call sites in
`buffer_line.rs`): if Valid, transitions to Retained preserving the artifact
as reusable storage; if Empty or already Retained, no-op. -/
def set_unused {α : Type} : Cached α → Cached α
  | Valid v => Retained v
  | c => c

/-- Modelled from the spec: `is_stale` (`is_unused` at the call sites):
true unless Valid. -/
def is_unused {α : Type} : Cached α → Bool
  | Valid _ => false
  | _ => true

/-- Modelled from the spec: `take_retained` (`take_unused` at the call sites):
if Retained, yields the artifact and transitions to Empty; otherwise yields
nothing.  Returned as (yielded artifact, slot afterwards). -/
def take_unused {α : Type} : Cached α → Option α × Cached α
  | Retained v => (some v, Empty)
  | c => (none, c)

/-- Modelled from the spec: `install` (`set_used` at the call sites):
store a newly computed artifact as Valid. -/
def set_used {α : Type} (_c : Cached α) (v : α) : Cached α :=
  Valid v

/-- Modelled from the spec: `peek` (`get` at the call sites): returns the
artifact only if Valid; otherwise nothing. -/
def get {α : Type} : Cached α → Option α
  | Valid v => some v
  | _ => none

/-- True exactly on the Retained state. -/
def isRetained {α : Type} : Cached α → Bool
  | Retained _ => true
  | _ => false

end Cached

/-- Modelled from the spec: the enumerated line-terminator kind
(`LineEnding`), a value type compared by equality. -/
inductive LineEnding : Type where
  | n : LineEnding
  | lf : LineEnding
  | crLf : LineEnding
  | cr : LineEnding
deriving DecidableEq, Repr

/-- Modelled from the spec: the optional text-alignment override (`Align`),
a value type compared by equality. -/
inductive Align : Type where
  | left : Align
  | right : Align
  | center : Align
  | justified : Align
  | endA : Align
deriving DecidableEq, Repr

/-- Modelled from the spec: the enumerated shaping policy (`Shaping`),
a value type compared by equality. -/
inductive Shaping : Type where
  | basic : Shaping
  | advanced : Shaping
deriving DecidableEq, Repr

/-- Modelled from the spec: the wrap policy passed opaquely to the layout
engine (`Wrap`), a value type. -/
inductive Wrap : Type where
  | none : Wrap
  | glyph : Wrap
  | word : Wrap
  | wordOrGlyph : Wrap
deriving DecidableEq, Repr

/-- Modelled from the spec: attribute values (`Attrs`) are opaque to the core
and only compared for equality; they are represented by natural numbers. -/
abbrev Attrs : Type := Nat

/-- An attribute span: a half-open byte range `[start, stop)` with the
attribute value layered over that range. -/
structure Span : Type where
  start : Nat
  stop : Nat
  attrs : Attrs
deriving DecidableEq, Repr

/-- Modelled from the spec: the `AttrsList` collaborator — an ordered list of
byte-range attribute overrides plus a default attribute value.  When spans
overlap, a later span overrides an earlier one over their intersection. -/
structure AttrsList : Type where
  defaults : Attrs
  spans : List Span
deriving DecidableEq, Repr

namespace AttrsList

/-- Modelled from the spec: construct an attribute list holding only a
default value and no explicit spans (`AttrsList::new`). -/
def new (d : Attrs) : AttrsList :=
  { defaults := d, spans := [] }

/-- Modelled from the spec: merge in a span at a given range
(`AttrsList::add_span`); the new span overrides existing spans over its
range, which the ordered-with-later-override representation realizes by
appending it. -/
def add_span (l : AttrsList) (start stop : Nat) (a : Attrs) : AttrsList :=
  { l with spans := l.spans ++ [⟨start, stop, a⟩] }

/-- Modelled from the spec: produce the sub-lists for the byte ranges below
and at-or-above `index` (`AttrsList::split_off`): spans crossing the boundary
are divided, and offsets in the suffix part are rebased to start at 0.
Returns (kept prefix part, returned suffix part). -/
def split_off (l : AttrsList) (index : Nat) : AttrsList × AttrsList :=
  ({ defaults := l.defaults,
     spans := l.spans.filterMap fun sp =>
       if sp.start < index then some ⟨sp.start, min sp.stop index, sp.attrs⟩ else none },
   { defaults := l.defaults,
     spans := l.spans.filterMap fun sp =>
       if index < sp.stop then some ⟨sp.start - index, sp.stop - index, sp.attrs⟩ else none })

/-- Whether a span's half-open range contains position `i`. -/
def covers (i : Nat) (sp : Span) : Bool :=
  sp.start ≤ i && i < sp.stop

/-- Modelled from the spec: the attribute coverage of a list — the effective
attribute value at byte position `i`: the last span containing `i` wins,
falling back to the defaults. -/
def attrsAt (l : AttrsList) (i : Nat) : Attrs :=
  l.spans.foldl (fun acc sp => if covers i sp then sp.attrs else acc) l.defaults

end AttrsList

/-- Modelled from the spec: the shape artifact.  The external shaping engine
is deterministic for fixed inputs, so the artifact is represented by the
inputs it was produced from: (text, attribute spans, shaping mode, tab
width). -/
structure ShapeLine : Type where
  text : List Char
  attrs : AttrsList
  shaping : Shaping
  tabWidth : Nat
deriving DecidableEq, Repr

namespace ShapeLine

/-- Modelled from the spec: `ShapeLine::empty`, a fresh empty artifact used
when no retained storage is available. -/
def empty : ShapeLine :=
  { text := [], attrs := AttrsList.new 0, shaping := Shaping.advanced, tabWidth := 0 }

/-- Modelled from the spec: `ShapeLine::build` — the shaping engine populates
the (possibly reused) artifact entirely from the current inputs; the previous
contents of the scratch artifact do not influence the result. -/
def build (_scratch : ShapeLine) (text : List Char) (attrs : AttrsList)
    (shaping : Shaping) (tabWidth : Nat) : ShapeLine :=
  { text := text, attrs := attrs, shaping := shaping, tabWidth := tabWidth }

end ShapeLine

/-- Modelled from the spec: the layout artifact (the `Vec<LayoutLine>` of
positioned rows).  The external layout engine is deterministic for fixed
inputs, so the artifact is represented by the inputs it was produced from. -/
structure LayoutRows : Type where
  shape : ShapeLine
  fontSize : Nat
  widthOpt : Option Nat
  wrap : Wrap
  align : Option Align
  matchMonoWidth : Option Nat
deriving DecidableEq, Repr

namespace LayoutRows

/-- Modelled from the spec: a fresh empty row sequence used when no retained
storage is available (`Vec::with_capacity(1)`). -/
def empty : LayoutRows :=
  { shape := ShapeLine.empty, fontSize := 0, widthOpt := none, wrap := Wrap.none,
    align := none, matchMonoWidth := none }

/-- Modelled from the spec: `layout_to_buffer` — the layout engine populates
the (possibly reused) row sequence entirely from (shape, font size, width,
wrap, alignment, mono-width); the scratch contents do not influence the
result. -/
def build (_scratch : LayoutRows) (shape : ShapeLine) (fontSize : Nat)
    (widthOpt : Option Nat) (wrap : Wrap) (align : Option Align)
    (matchMonoWidth : Option Nat) : LayoutRows :=
  { shape := shape, fontSize := fontSize, widthOpt := widthOpt, wrap := wrap,
    align := align, matchMonoWidth := matchMonoWidth }

end LayoutRows

/-- Modelled from the spec: the font system handle threaded through the
engine calls; the core does not interpret it. -/
def FontSystem : Type := Unit

/-- The `BufferLine` aggregate, translated field-for-field from
`src/buffer_line.rs` (text is a character list; byte offsets of the source
become offsets into that list). -/
structure BufferLine : Type where
  text : List Char
  ending : LineEnding
  attrs_list : AttrsList
  align : Option Align
  shape_opt : Cached ShapeLine
  layout_opt : Cached LayoutRows
  shaping : Shaping
  metadata : Option Nat
deriving DecidableEq, Repr

namespace BufferLine

/-- `BufferLine::new`: create a new line with the given text and attributes
list; alignment unset, both caches Empty, no metadata. -/
def new (text : List Char) (ending : LineEnding) (attrs_list : AttrsList)
    (shaping : Shaping) : BufferLine :=
  { text := text, ending := ending, attrs_list := attrs_list, align := none,
    shape_opt := Cached.Empty, layout_opt := Cached.Empty,
    shaping := shaping, metadata := none }

/-- `BufferLine::reset_layout`: reset only the layout cache. -/
def reset_layout (l : BufferLine) : BufferLine :=
  { l with layout_opt := l.layout_opt.set_unused }

/-- `BufferLine::reset_shaping`: reset shaping and layout caches. -/
def reset_shaping (l : BufferLine) : BufferLine :=
  ({ l with shape_opt := l.shape_opt.set_unused } : BufferLine).reset_layout

/-- `BufferLine::reset`: reset shaping, layout, and metadata. -/
def reset (l : BufferLine) : BufferLine :=
  ({ l with metadata := none } : BufferLine).reset_shaping

/-- `BufferLine::reset_new`: reset the line in place with new internal
values, avoiding deallocation of the internal caches so they can be
reused. -/
def reset_new (l : BufferLine) (text : List Char) (ending : LineEnding)
    (attrs_list : AttrsList) (shaping : Shaping) : BufferLine :=
  { l with
    text := text,
    ending := ending,
    attrs_list := attrs_list,
    align := none,
    shape_opt := l.shape_opt.set_unused,
    layout_opt := l.layout_opt.set_unused,
    shaping := shaping,
    metadata := none }

/-- `BufferLine::set_text`: set text, ending, and attributes list; resets
shape, layout, and metadata if any of the three differs from the current
value.  Returns (line afterwards, whether the line was reset). -/
def set_text (l : BufferLine) (text : List Char) (ending : LineEnding)
    (attrs_list : AttrsList) : BufferLine × Bool :=
  if text ≠ l.text ∨ ending ≠ l.ending ∨ attrs_list ≠ l.attrs_list then
    (({ l with text := text, ending := ending, attrs_list := attrs_list } : BufferLine).reset,
     true)
  else
    (l, false)

/-- `BufferLine::set_ending`: set the line ending; resets shape and layout
if it differs from the current one. -/
def set_ending (l : BufferLine) (ending : LineEnding) : BufferLine × Bool :=
  if ending ≠ l.ending then
    (({ l with ending := ending } : BufferLine).reset_shaping, true)
  else
    (l, false)

/-- `BufferLine::set_attrs_list`: set the attributes list; resets shape and
layout if it differs from the current one. -/
def set_attrs_list (l : BufferLine) (attrs_list : AttrsList) : BufferLine × Bool :=
  if attrs_list ≠ l.attrs_list then
    (({ l with attrs_list := attrs_list } : BufferLine).reset_shaping, true)
  else
    (l, false)

/-- `BufferLine::set_align`: set the text alignment; resets only the layout
if it differs from the current one. -/
def set_align (l : BufferLine) (align : Option Align) : BufferLine × Bool :=
  if align ≠ l.align then
    (({ l with align := align } : BufferLine).reset_layout, true)
  else
    (l, false)

/-- `BufferLine::append`: append `other` at the end of this line.  If the
default attributes differ, a span carrying `other`'s defaults is added over
the appended range; then every explicit span of `other` is re-added shifted
by the previous length; finally the line is reset. -/
def append (l : BufferLine) (other : BufferLine) : BufferLine :=
  let len := l.text.length
  let text2 := l.text ++ other.text
  let attrs1 :=
    if other.attrs_list.defaults ≠ l.attrs_list.defaults then
      l.attrs_list.add_span len (len + other.text.length) other.attrs_list.defaults
    else
      l.attrs_list
  let attrs2 := other.attrs_list.spans.foldl
    (fun acc sp => acc.add_span (sp.start + len) (sp.stop + len) sp.attrs) attrs1
  ({ l with text := text2, attrs_list := attrs2 } : BufferLine).reset

/-- `BufferLine::split_off`: split off a new line at the index.  `self`
keeps the prefix (reset), the returned line holds the suffix with ending,
shaping mode, and alignment copied from `self`. -/
def split_off (l : BufferLine) (index : Nat) : BufferLine × BufferLine :=
  let textSuf := l.text.drop index
  let textPre := l.text.take index
  let attrsPair := l.attrs_list.split_off index
  let self1 := ({ l with text := textPre, attrs_list := attrsPair.1 } : BufferLine).reset
  let lineNew := BufferLine.new textSuf self1.ending attrsPair.2 self1.shaping
  (self1, { lineNew with align := self1.align })

/-- `BufferLine::shape`: shape the line, caching the result.  If the slot is
stale, retained storage is taken (falling back to a fresh empty artifact),
the shaping engine rebuilds it from the current inputs, the result is
installed, and the layout slot is marked stale.  Returns (line afterwards,
the shape artifact). -/
def shape (l : BufferLine) (_fs : FontSystem) (tabWidth : Nat) :
    BufferLine × ShapeLine :=
  if l.shape_opt.is_unused then
    let taken := l.shape_opt.take_unused
    let line := ShapeLine.build (taken.1.getD ShapeLine.empty)
      l.text l.attrs_list l.shaping tabWidth
    ({ l with
       shape_opt := taken.2.set_used line,
       layout_opt := l.layout_opt.set_unused },
     line)
  else
    (l, l.shape_opt.get.getD ShapeLine.empty)

/-- `BufferLine::layout`: lay out the line, caching the result.  If the slot
is stale, retained storage is taken, the current shape is obtained via
`shape` (possibly recomputing it), the layout engine rebuilds the rows, and
the result is installed.  Returns (line afterwards, the rows). -/
def layout (l : BufferLine) (fs : FontSystem) (fontSize : Nat)
    (widthOpt : Option Nat) (wrap : Wrap) (matchMonoWidth : Option Nat)
    (tabWidth : Nat) : BufferLine × LayoutRows :=
  if l.layout_opt.is_unused then
    let align := l.align
    let taken := l.layout_opt.take_unused
    let l1 : BufferLine := { l with layout_opt := taken.2 }
    let shaped := l1.shape fs tabWidth
    let rows := LayoutRows.build (taken.1.getD LayoutRows.empty)
      shaped.2 fontSize widthOpt wrap align matchMonoWidth
    ({ shaped.1 with layout_opt := shaped.1.layout_opt.set_used rows }, rows)
  else
    (l, l.layout_opt.get.getD LayoutRows.empty)

/-- `BufferLine::set_metadata`: set the line metadata, stored until the next
line reset. -/
def set_metadata (l : BufferLine) (m : Nat) : BufferLine :=
  { l with metadata := some m }

end BufferLine

/-- A span with both endpoints shifted by `len`, as `append` rebases the
spans of the appended line. -/
def shiftSpan (len : Nat) (sp : Span) : Span :=
  ⟨sp.start + len, sp.stop + len, sp.attrs⟩

/-- The step function of attribute coverage: a span containing `i`
overrides the accumulated value. -/
def pickAt (i : Nat) (acc : Attrs) (sp : Span) : Attrs :=
  if sp.start ≤ i ∧ i < sp.stop then sp.attrs else acc

/-- Fixture: a small freshly constructed line. -/
def line0 : BufferLine :=
  BufferLine.new ['h', 'i'] LineEnding.lf (AttrsList.new 0) Shaping.advanced

/-- Fixture: the trivial font-system handle. -/
def fs0 : FontSystem := ()

/-- Fixture: `line0` after shaping (shape slot Valid). -/
def lineShaped : BufferLine := (line0.shape fs0 8).1

/-- Fixture: `lineShaped` after layout (both slots Valid). -/
def lineLaid : BufferLine := (lineShaped.layout fs0 14 (some 100) Wrap.word none 8).1

/-- Fixture: line A of the claim's concrete append example — text "hel",
default attribute 0, one explicit span [0, 1) with attribute 2. -/
def lineA : BufferLine :=
  { text := ['h', 'e', 'l'], ending := LineEnding.lf,
    attrs_list := { defaults := 0, spans := [⟨0, 1, 2⟩] }, align := none,
    shape_opt := Cached.Empty, layout_opt := Cached.Empty,
    shaping := Shaping.advanced, metadata := none }

/-- Fixture: line B of the claim's concrete append example — text "lo",
default attribute 1 (differing from A's), one bold span [0, 1) with
attribute 5. -/
def lineB : BufferLine :=
  { text := ['l', 'o'], ending := LineEnding.lf,
    attrs_list := { defaults := 1, spans := [⟨0, 1, 5⟩] }, align := none,
    shape_opt := Cached.Empty, layout_opt := Cached.Empty,
    shaping := Shaping.advanced, metadata := none }

/-- Fixture: a line whose single span crosses the split index used in the
round-trip witness. -/
def lineC : BufferLine :=
  { text := ['a', 'b', 'c'], ending := LineEnding.lf,
    attrs_list := { defaults := 0, spans := [⟨0, 3, 4⟩] }, align := none,
    shape_opt := Cached.Empty, layout_opt := Cached.Empty,
    shaping := Shaping.advanced, metadata := none }

/-- The states of a `BufferLine` reachable from construction by the public
operations. -/
inductive Reachable : BufferLine → Prop where
  | new (t : List Char) (e : LineEnding) (a : AttrsList) (s : Shaping) :
      Reachable (BufferLine.new t e a s)
  | set_text (l : BufferLine) (t : List Char) (e : LineEnding) (a : AttrsList) :
      Reachable l → Reachable (l.set_text t e a).1
  | set_ending (l : BufferLine) (e : LineEnding) :
      Reachable l → Reachable (l.set_ending e).1
  | set_attrs_list (l : BufferLine) (a : AttrsList) :
      Reachable l → Reachable (l.set_attrs_list a).1
  | set_align (l : BufferLine) (al : Option Align) :
      Reachable l → Reachable (l.set_align al).1
  | append (l o : BufferLine) :
      Reachable l → Reachable o → Reachable (l.append o)
  | split_self (l : BufferLine) (k : Nat) :
      Reachable l → Reachable (l.split_off k).1
  | split_new (l : BufferLine) (k : Nat) :
      Reachable l → Reachable (l.split_off k).2
  | reset_new (l : BufferLine) (t : List Char) (e : LineEnding) (a : AttrsList)
      (s : Shaping) : Reachable l → Reachable (l.reset_new t e a s)
  | shape (l : BufferLine) (fs : FontSystem) (tw : Nat) :
      Reachable l → Reachable (l.shape fs tw).1
  | layout (l : BufferLine) (fs : FontSystem) (fsz : Nat) (w : Option Nat)
      (wr : Wrap) (mm : Option Nat) (tw : Nat) :
      Reachable l → Reachable (l.layout fs fsz w wr mm tw).1
  | set_metadata (l : BufferLine) (m : Nat) :
      Reachable l → Reachable (l.set_metadata m)

/-- `attrsAt` is the fold of `pickAt` over the span list. -/
theorem attrsAt_eq_foldl (l : AttrsList) (i : Nat) :
    l.attrsAt i = l.spans.foldl (pickAt i) l.defaults := by
  unfold AttrsList.attrsAt pickAt AttrsList.covers
  congr 1
  funext acc sp
  by_cases h : sp.start ≤ i ∧ i < sp.stop
  · rw [if_pos h, if_pos (by simp [h.1, h.2])]
  · rw [if_neg h, if_neg (by simpa [Decidable.not_and_iff_or_not] using h)]

/-- Marking a cache slot stale makes `peek` return nothing. -/
theorem Cached.get_set_unused {α : Type} (c : Cached α) : c.set_unused.get = none := by
  cases c <;> rfl

/-- A shaped-and-rebuilt line always has a Valid shape slot. -/
theorem shape_fst_shape_opt_isSome (l : BufferLine) (fs : FontSystem) (tw : Nat) :
    ((l.shape fs tw).1.shape_opt.get).isSome = true := by
  rcases l with ⟨tx, e, a, al, so, lo, s, m⟩
  unfold BufferLine.shape
  cases so <;> rfl

/-- Claim C10: `reset_new` also resets the alignment override — after any
`reset_new` call, `align()` returns None regardless of the alignment set
before the call. -/
theorem c10_reset_new_clears_align (l : BufferLine) (t : List Char) (e : LineEnding)
    (a : AttrsList) (s : Shaping) :
    (l.reset_new t e a s).align = none :=
  rfl

/-- Claim C8 counterexample: `reset_new` does not force the cache slots into
the Retained state — on a freshly constructed line whose slots are Empty,
both slots are still Empty (hence not Retained) after `reset_new`. -/
theorem c8_counterexample :
    (line0.reset_new [] LineEnding.n (AttrsList.new 0) Shaping.basic).shape_opt.isRetained
      = false ∧
    (line0.reset_new [] LineEnding.n (AttrsList.new 0) Shaping.basic).layout_opt.isRetained
      = false := by
  decide

/-- Claim C8 (amended): `reset_new` unconditionally replaces text, ending,
attrs, and shaping mode, clears metadata and the alignment override, and
marks both cache slots stale: a Valid slot moves to Retained (its backing
storage kept for reuse by the next shape/layout computation), while an Empty
slot stays Empty; in every case both slots read as nothing afterwards. -/
theorem c8_reset_new_marks_stale (l : BufferLine) (t : List Char) (e : LineEnding)
    (a : AttrsList) (s : Shaping) :
    l.reset_new t e a s =
      { text := t, ending := e, attrs_list := a, align := none,
        shape_opt := l.shape_opt.set_unused, layout_opt := l.layout_opt.set_unused,
        shaping := s, metadata := none } ∧
    (l.reset_new t e a s).shape_opt.get = none ∧
    (l.reset_new t e a s).layout_opt.get = none ∧
    (∀ v, l.shape_opt = Cached.Valid v →
      (l.reset_new t e a s).shape_opt = Cached.Retained v) ∧
    (∀ v, l.layout_opt = Cached.Valid v →
      (l.reset_new t e a s).layout_opt = Cached.Retained v) ∧
    (l.shape_opt = Cached.Empty → (l.reset_new t e a s).shape_opt = Cached.Empty) ∧
    (l.layout_opt = Cached.Empty → (l.reset_new t e a s).layout_opt = Cached.Empty) := by
  refine ⟨rfl, Cached.get_set_unused _, Cached.get_set_unused _,
    fun v hv => ?_, fun v hv => ?_, fun hv => ?_, fun hv => ?_⟩ <;>
    simp [BufferLine.reset_new, hv, Cached.set_unused]

/-- Claim C8 witness: the amended behaviour at concrete inputs — a line with
both slots Valid moves them to Retained; a line with both slots Empty keeps
them Empty. -/
theorem c8_reset_new_marks_stale_witness :
    lineLaid.shape_opt = Cached.Valid (ShapeLine.build ShapeLine.empty line0.text
      line0.attrs_list line0.shaping 8) ∧
    (lineLaid.reset_new [] LineEnding.n (AttrsList.new 0) Shaping.basic).shape_opt
      = Cached.Retained (ShapeLine.build ShapeLine.empty line0.text
          line0.attrs_list line0.shaping 8) ∧
    line0.shape_opt = Cached.Empty ∧
    (line0.reset_new [] LineEnding.n (AttrsList.new 0) Shaping.basic).shape_opt
      = Cached.Empty :=
  ⟨by decide,
   (c8_reset_new_marks_stale lineLaid [] LineEnding.n (AttrsList.new 0)
      Shaping.basic).2.2.2.1 _ (by decide),
   by decide,
   (c8_reset_new_marks_stale line0 [] LineEnding.n (AttrsList.new 0)
      Shaping.basic).2.2.2.2.2.1 (by decide)⟩

/-- Claim C6: calling `set_text`, `set_ending`, or `set_attrs_list` with
values equal to the line's current ones returns false and mutates nothing —
the resulting line is exactly the line before the call. -/
theorem c6_setter_idempotence (l : BufferLine) (t : List Char) (e : LineEnding)
    (a : AttrsList) :
    (t = l.text → e = l.ending → a = l.attrs_list → l.set_text t e a = (l, false)) ∧
    (e = l.ending → l.set_ending e = (l, false)) ∧
    (a = l.attrs_list → l.set_attrs_list a = (l, false)) := by
  refine ⟨fun h1 h2 h3 => ?_, fun h => ?_, fun h => ?_⟩
  · unfold BufferLine.set_text
    rw [if_neg (by push_neg; exact ⟨h1, h2, h3⟩)]
  · unfold BufferLine.set_ending
    rw [if_neg (not_not_intro h)]
  · unfold BufferLine.set_attrs_list
    rw [if_neg (not_not_intro h)]

/-- Claim C6 witness: at a concrete line with Valid caches, re-setting the
current values leaves the line (caches included) exactly unchanged. -/
theorem c6_setter_idempotence_witness :
    (['h', 'i'] = lineLaid.text ∧ LineEnding.lf = lineLaid.ending ∧
      AttrsList.new 0 = lineLaid.attrs_list) ∧
    lineLaid.set_text ['h', 'i'] LineEnding.lf (AttrsList.new 0) = (lineLaid, false) ∧
    lineLaid.set_ending LineEnding.lf = (lineLaid, false) ∧
    lineLaid.set_attrs_list (AttrsList.new 0) = (lineLaid, false) :=
  ⟨⟨by decide, by decide, by decide⟩,
   (c6_setter_idempotence lineLaid ['h', 'i'] LineEnding.lf (AttrsList.new 0)).1
     (by decide) (by decide) (by decide),
   (c6_setter_idempotence lineLaid ['h', 'i'] LineEnding.lf (AttrsList.new 0)).2.1
     (by decide),
   (c6_setter_idempotence lineLaid ['h', 'i'] LineEnding.lf (AttrsList.new 0)).2.2
     (by decide)⟩

/-- Claim C5: for a valid index, `split_off` leaves the prefix in `self`
with both caches stale and metadata cleared, and returns the suffix line
with the rebased suffix spans, ending, shaping mode, and alignment copied
from `self`, both slots Empty, and no metadata. -/
theorem c5_split_off_shape (l : BufferLine) (k : Nat) (h : k ≤ l.text.length) :
    (l.split_off k).1.text = l.text.take k ∧
    (l.split_off k).1.attrs_list = (l.attrs_list.split_off k).1 ∧
    (l.split_off k).1.shape_opt.get = none ∧
    (l.split_off k).1.layout_opt.get = none ∧
    (l.split_off k).1.metadata = none ∧
    (l.split_off k).1.ending = l.ending ∧
    (l.split_off k).1.align = l.align ∧
    (l.split_off k).1.shaping = l.shaping ∧
    (l.split_off k).2.text = l.text.drop k ∧
    (l.split_off k).2.attrs_list = (l.attrs_list.split_off k).2 ∧
    (l.split_off k).2.attrs_list.spans = l.attrs_list.spans.filterMap
      (fun sp => if k < sp.stop then
        some (⟨sp.start - k, sp.stop - k, sp.attrs⟩ : Span) else none) ∧
    (l.split_off k).2.ending = l.ending ∧
    (l.split_off k).2.shaping = l.shaping ∧
    (l.split_off k).2.align = l.align ∧
    (l.split_off k).2.shape_opt = Cached.Empty ∧
    (l.split_off k).2.layout_opt = Cached.Empty ∧
    (l.split_off k).2.metadata = none :=
  ⟨rfl, rfl, Cached.get_set_unused _, Cached.get_set_unused _, rfl, rfl, rfl, rfl,
   rfl, rfl, rfl, rfl, rfl, rfl, rfl, rfl, rfl⟩

/-- Claim C5 witness: splitting the concrete line `line0` at index 1. -/
theorem c5_split_off_shape_witness :
    1 ≤ line0.text.length ∧
    (line0.split_off 1).1.text = line0.text.take 1 ∧
    (line0.split_off 1).2.text = line0.text.drop 1 ∧
    (line0.split_off 1).2.shape_opt = Cached.Empty :=
  ⟨by decide,
   (c5_split_off_shape line0 1 (by decide)).1,
   (c5_split_off_shape line0 1 (by decide)).2.2.2.2.2.2.2.2.1,
   (c5_split_off_shape line0 1 (by decide)).2.2.2.2.2.2.2.2.2.2.2.2.2.2.1⟩

/-- Claim C1: every value-changing `set_text` / `set_ending` /
`set_attrs_list`, and every `append` / `split_off` / `reset_new`, leaves
both `shape_opt()` and `layout_opt()` returning nothing; a value-changing
`set_align` leaves the shape slot exactly as it was and makes only
`layout_opt()` return nothing. -/
theorem c1_cache_invalidation (l : BufferLine) (t : List Char) (e : LineEnding)
    (a : AttrsList) (al : Option Align) (o : BufferLine) (k : Nat) (s : Shaping) :
    ((t ≠ l.text ∨ e ≠ l.ending ∨ a ≠ l.attrs_list) →
      (l.set_text t e a).1.shape_opt.get = none ∧
      (l.set_text t e a).1.layout_opt.get = none) ∧
    (e ≠ l.ending →
      (l.set_ending e).1.shape_opt.get = none ∧
      (l.set_ending e).1.layout_opt.get = none) ∧
    (a ≠ l.attrs_list →
      (l.set_attrs_list a).1.shape_opt.get = none ∧
      (l.set_attrs_list a).1.layout_opt.get = none) ∧
    ((l.append o).shape_opt.get = none ∧ (l.append o).layout_opt.get = none) ∧
    ((l.split_off k).1.shape_opt.get = none ∧
      (l.split_off k).1.layout_opt.get = none) ∧
    ((l.reset_new t e a s).shape_opt.get = none ∧
      (l.reset_new t e a s).layout_opt.get = none) ∧
    (al ≠ l.align →
      (l.set_align al).1.shape_opt = l.shape_opt ∧
      (l.set_align al).1.layout_opt.get = none) := by
  refine ⟨fun h => ?_, fun h => ?_, fun h => ?_, ?_, ?_, ?_, fun h => ?_⟩
  · unfold BufferLine.set_text
    rw [if_pos h]
    exact ⟨Cached.get_set_unused _, Cached.get_set_unused _⟩
  · unfold BufferLine.set_ending
    rw [if_pos h]
    exact ⟨Cached.get_set_unused _, Cached.get_set_unused _⟩
  · unfold BufferLine.set_attrs_list
    rw [if_pos h]
    exact ⟨Cached.get_set_unused _, Cached.get_set_unused _⟩
  · exact ⟨Cached.get_set_unused _, Cached.get_set_unused _⟩
  · exact ⟨Cached.get_set_unused _, Cached.get_set_unused _⟩
  · exact ⟨Cached.get_set_unused _, Cached.get_set_unused _⟩
  · unfold BufferLine.set_align
    rw [if_pos h]
    exact ⟨rfl, Cached.get_set_unused _⟩

/-- Claim C1 witness: concrete value-changing calls — invalidators on
`line0`, and `set_align` on the fully cached `lineLaid`, whose shape slot is
untouched while the layout slot reads as nothing. -/
theorem c1_cache_invalidation_witness :
    (['a'] ≠ line0.text ∨ LineEnding.crLf ≠ line0.ending ∨
      AttrsList.new 1 ≠ line0.attrs_list) ∧
    (line0.set_text ['a'] LineEnding.crLf (AttrsList.new 1)).1.shape_opt.get = none ∧
    (line0.set_text ['a'] LineEnding.crLf (AttrsList.new 1)).1.layout_opt.get = none ∧
    some Align.left ≠ lineLaid.align ∧
    (lineLaid.set_align (some Align.left)).1.shape_opt = lineLaid.shape_opt ∧
    (lineLaid.set_align (some Align.left)).1.layout_opt.get = none :=
  ⟨by decide,
   ((c1_cache_invalidation line0 ['a'] LineEnding.crLf (AttrsList.new 1)
      (some Align.left) line0 1 Shaping.basic).1 (by decide)).1,
   ((c1_cache_invalidation line0 ['a'] LineEnding.crLf (AttrsList.new 1)
      (some Align.left) line0 1 Shaping.basic).1 (by decide)).2,
   by decide,
   ((c1_cache_invalidation lineLaid ['a'] LineEnding.crLf (AttrsList.new 1)
      (some Align.left) line0 1 Shaping.basic).2.2.2.2.2.2 (by decide)).1,
   ((c1_cache_invalidation lineLaid ['a'] LineEnding.crLf (AttrsList.new 1)
      (some Align.left) line0 1 Shaping.basic).2.2.2.2.2.2 (by decide)).2⟩

/-- Claim C3: metadata is cleared exactly by content-identity changes —
value-changing `set_text`, `append`, `split_off`, `reset_new` — and is
preserved by value-changing `set_ending` / `set_attrs_list` / `set_align`
and by `shape` / `layout` recomputation at read time. -/
theorem c3_metadata_scoping (l : BufferLine) (t : List Char) (e : LineEnding)
    (a : AttrsList) (al : Option Align) (o : BufferLine) (k : Nat) (s : Shaping)
    (fs : FontSystem) (tw fsz : Nat) (w mm : Option Nat) (wr : Wrap) :
    ((t ≠ l.text ∨ e ≠ l.ending ∨ a ≠ l.attrs_list) →
      (l.set_text t e a).1.metadata = none) ∧
    (l.append o).metadata = none ∧
    (l.split_off k).1.metadata = none ∧
    (l.split_off k).2.metadata = none ∧
    (l.reset_new t e a s).metadata = none ∧
    (e ≠ l.ending → (l.set_ending e).1.metadata = l.metadata) ∧
    (a ≠ l.attrs_list → (l.set_attrs_list a).1.metadata = l.metadata) ∧
    (al ≠ l.align → (l.set_align al).1.metadata = l.metadata) ∧
    (l.shape fs tw).1.metadata = l.metadata ∧
    (l.layout fs fsz w wr mm tw).1.metadata = l.metadata := by
  refine ⟨fun h => ?_, rfl, rfl, rfl, rfl, fun h => ?_, fun h => ?_, fun h => ?_,
    ?_, ?_⟩
  · unfold BufferLine.set_text
    rw [if_pos h]
    rfl
  · unfold BufferLine.set_ending
    rw [if_pos h]
    rfl
  · unfold BufferLine.set_attrs_list
    rw [if_pos h]
    rfl
  · unfold BufferLine.set_align
    rw [if_pos h]
    rfl
  · unfold BufferLine.shape
    rcases l with ⟨tx, le, aa, all, so, lo, sh, m⟩
    cases so <;> rfl
  · unfold BufferLine.layout BufferLine.shape
    rcases l with ⟨tx, le, aa, all, so, lo, sh, m⟩
    cases so <;> cases lo <;> rfl

/-- Claim C3 witness: metadata survives a value-changing `set_ending` and a
shape/layout recomputation, and is cleared by a value-changing `set_text`,
on a concrete line carrying metadata. -/
theorem c3_metadata_scoping_witness :
    (['a'] ≠ (lineLaid.set_metadata 7).text ∨
      LineEnding.crLf ≠ (lineLaid.set_metadata 7).ending ∨
      AttrsList.new 1 ≠ (lineLaid.set_metadata 7).attrs_list) ∧
    ((lineLaid.set_metadata 7).set_text ['a'] LineEnding.crLf
      (AttrsList.new 1)).1.metadata = none ∧
    LineEnding.crLf ≠ (lineLaid.set_metadata 7).ending ∧
    ((lineLaid.set_metadata 7).set_ending LineEnding.crLf).1.metadata
      = (lineLaid.set_metadata 7).metadata ∧
    ((lineLaid.set_metadata 7).shape fs0 8).1.metadata
      = (lineLaid.set_metadata 7).metadata :=
  ⟨by decide,
   (c3_metadata_scoping (lineLaid.set_metadata 7) ['a'] LineEnding.crLf
      (AttrsList.new 1) (some Align.left) line0 1 Shaping.basic fs0 8 14
      (some 100) none Wrap.word).1 (by decide),
   by decide,
   (c3_metadata_scoping (lineLaid.set_metadata 7) ['a'] LineEnding.crLf
      (AttrsList.new 1) (some Align.left) line0 1 Shaping.basic fs0 8 14
      (some 100) none Wrap.word).2.2.2.2.2.1 (by decide),
   (c3_metadata_scoping (lineLaid.set_metadata 7) ['a'] LineEnding.crLf
      (AttrsList.new 1) (some Align.left) line0 1 Shaping.basic fs0 8 14
      (some 100) none Wrap.word).2.2.2.2.2.2.2.2.1⟩

/-- Claim C2: when the shape slot is stale, `shape` builds a new artifact
from the current inputs, installs it as Valid, and unconditionally marks the
layout slot stale; when the shape slot is already Valid, `shape` returns the
cached artifact and changes nothing. -/
theorem c2_shape_recompute_discipline (l : BufferLine) (fs : FontSystem) (tw : Nat) :
    (l.shape_opt.is_unused = true →
      (l.shape fs tw).1.shape_opt =
        Cached.Valid (ShapeLine.build ShapeLine.empty l.text l.attrs_list l.shaping tw) ∧
      (l.shape fs tw).2 =
        ShapeLine.build ShapeLine.empty l.text l.attrs_list l.shaping tw ∧
      (l.shape fs tw).1.layout_opt = l.layout_opt.set_unused ∧
      (l.shape fs tw).1.layout_opt.get = none) ∧
    (l.shape_opt.is_unused = false →
      (l.shape fs tw).1 = l ∧ l.shape_opt.get = some (l.shape fs tw).2) := by
  rcases l with ⟨tx, le, aa, all, so, lo, sh, m⟩
  unfold BufferLine.shape
  cases so with
  | Empty =>
    exact ⟨fun _ => ⟨rfl, rfl, rfl, Cached.get_set_unused _⟩, fun h => by simp_all [Cached.is_unused]⟩
  | Retained v =>
    exact ⟨fun _ => ⟨rfl, rfl, rfl, Cached.get_set_unused _⟩, fun h => by simp_all [Cached.is_unused]⟩
  | Valid v =>
    exact ⟨fun h => by simp_all [Cached.is_unused], fun _ => ⟨rfl, rfl⟩⟩

/-- Claim C2 witness: at the concrete fully cached line, a stale shape slot
(after `set_ending`) is rebuilt with the layout slot invalidated, and a
Valid shape slot is returned unchanged. -/
theorem c2_shape_recompute_discipline_witness :
    ((lineLaid.set_ending LineEnding.crLf).1.shape_opt.is_unused = true ∧
      (((lineLaid.set_ending LineEnding.crLf).1.shape fs0 8).1.layout_opt.get = none)) ∧
    (lineLaid.shape_opt.is_unused = false ∧
      (lineLaid.shape fs0 8).1 = lineLaid) :=
  ⟨⟨by decide,
    ((c2_shape_recompute_discipline (lineLaid.set_ending LineEnding.crLf).1 fs0 8).1
      (by decide)).2.2.2⟩,
   ⟨by decide,
    ((c2_shape_recompute_discipline lineLaid fs0 8).2 (by decide)).1⟩⟩

/-- Folding `add_span` over a list of spans shifted by `len` appends the
shifted spans, leaving the defaults unchanged. -/
theorem foldl_add_span (a : AttrsList) (xs : List Span) (len : Nat) :
    xs.foldl (fun acc sp => acc.add_span (sp.start + len) (sp.stop + len) sp.attrs) a =
    { defaults := a.defaults, spans := a.spans ++ xs.map (shiftSpan len) } := by
  induction xs generalizing a with
  | nil => simp
  | cons x xs ih =>
    rw [List.foldl_cons, ih]
    simp [AttrsList.add_span, shiftSpan]

/-- Claim C4: `append` concatenates the texts; if the defaults differ it
first adds a span over the appended range carrying the other line's
defaults, then re-adds the other line's spans shifted by the previous
length; it clears metadata, marks both caches stale, and keeps the
receiver's alignment and shaping mode.  In particular, appending B (text
"lo", span [0,1) attr 5, defaults 1) to A (text "hel", defaults 0) yields
"hello" with A's spans unchanged plus [3,5) = B's default and [3,4) = 5. -/
theorem c4_append_offsets (l o : BufferLine) :
    (l.append o).text = l.text ++ o.text ∧
    (l.append o).attrs_list.defaults = l.attrs_list.defaults ∧
    (l.append o).attrs_list.spans =
      (if o.attrs_list.defaults = l.attrs_list.defaults then l.attrs_list.spans
       else l.attrs_list.spans ++
         [⟨l.text.length, l.text.length + o.text.length, o.attrs_list.defaults⟩]) ++
      o.attrs_list.spans.map (shiftSpan l.text.length) ∧
    (l.append o).metadata = none ∧
    (l.append o).shape_opt.get = none ∧
    (l.append o).layout_opt.get = none ∧
    (l.append o).align = l.align ∧
    (l.append o).shaping = l.shaping ∧
    (lineA.append lineB).text = ['h', 'e', 'l', 'l', 'o'] ∧
    (lineA.append lineB).attrs_list.defaults = 0 ∧
    (lineA.append lineB).attrs_list.spans = [⟨0, 1, 2⟩, ⟨3, 5, 1⟩, ⟨3, 4, 5⟩] := by
  refine ⟨rfl, ?_, ?_, rfl, Cached.get_set_unused _, Cached.get_set_unused _, rfl, rfl,
    by decide, by decide, by decide⟩
  · simp only [BufferLine.append, BufferLine.reset, BufferLine.reset_shaping,
      BufferLine.reset_layout, foldl_add_span]
    split_ifs with hd <;> simp_all [AttrsList.add_span]
  · simp only [BufferLine.append, BufferLine.reset, BufferLine.reset_shaping,
      BufferLine.reset_layout, foldl_add_span]
    split_ifs with hd <;> simp_all [AttrsList.add_span]

/-- Claim C9: in every reachable state, a Valid layout slot implies a Valid
shape slot — `layout_opt()` returning a value implies `shape_opt()`
returns a value. -/
theorem c9_layout_valid_implies_shape_valid (l : BufferLine) (hr : Reachable l) :
    (l.layout_opt.get).isSome = true → (l.shape_opt.get).isSome = true := by
  induction hr with
  | new t e a s => intro h; exact absurd h (by simp [BufferLine.new, Cached.get])
  | set_text l t e a _ ih =>
    unfold BufferLine.set_text
    split
    · simp [BufferLine.reset, BufferLine.reset_shaping, BufferLine.reset_layout,
        Cached.get_set_unused]
    · exact ih
  | set_ending l e _ ih =>
    unfold BufferLine.set_ending
    split
    · simp [BufferLine.reset_shaping, BufferLine.reset_layout, Cached.get_set_unused]
    · exact ih
  | set_attrs_list l a _ ih =>
    unfold BufferLine.set_attrs_list
    split
    · simp [BufferLine.reset_shaping, BufferLine.reset_layout, Cached.get_set_unused]
    · exact ih
  | set_align l al _ ih =>
    unfold BufferLine.set_align
    split
    · simp [BufferLine.reset_layout, Cached.get_set_unused]
    · exact ih
  | append l o _ _ _ _ =>
    simp [BufferLine.append, BufferLine.reset, BufferLine.reset_shaping,
      BufferLine.reset_layout, Cached.get_set_unused]
  | split_self l k _ _ =>
    simp [BufferLine.split_off, BufferLine.reset, BufferLine.reset_shaping,
      BufferLine.reset_layout, Cached.get_set_unused]
  | split_new l k _ _ =>
    simp [BufferLine.split_off, BufferLine.new, Cached.get]
  | reset_new l t e a s _ _ =>
    simp [BufferLine.reset_new, Cached.get_set_unused]
  | shape l fs tw _ ih =>
    unfold BufferLine.shape
    split
    · simp [Cached.set_used, Cached.get, Cached.get_set_unused]
    · exact ih
  | layout l fs fsz w wr mm tw _ ih =>
    unfold BufferLine.layout
    split
    · intro _
      exact shape_fst_shape_opt_isSome _ fs tw
    · exact ih
  | set_metadata l m _ ih => exact ih

/-- Claim C9 witness: the concrete fully cached line is reachable and has
both slots Valid. -/
theorem c9_layout_valid_implies_shape_valid_witness :
    (lineLaid.layout_opt.get).isSome = true ∧ (lineLaid.shape_opt.get).isSome = true :=
  ⟨by decide,
   c9_layout_valid_implies_shape_valid lineLaid
     (Reachable.layout lineShaped fs0 14 (some 100) Wrap.word none 8
       (Reachable.shape line0 fs0 8
         (Reachable.new ['h', 'i'] LineEnding.lf (AttrsList.new 0) Shaping.advanced)))
     (by decide)⟩

/-- Characterization of the attribute list produced by `append`. -/
theorem append_attrs_spec (l o : BufferLine) :
    (l.append o).attrs_list =
      { defaults := l.attrs_list.defaults,
        spans := (if o.attrs_list.defaults = l.attrs_list.defaults then
            l.attrs_list.spans
          else l.attrs_list.spans ++
            [⟨l.text.length, l.text.length + o.text.length, o.attrs_list.defaults⟩]) ++
          o.attrs_list.spans.map (shiftSpan l.text.length) } := by
  simp only [BufferLine.append, BufferLine.reset, BufferLine.reset_shaping,
    BufferLine.reset_layout, foldl_add_span]
  split_ifs with h1 <;> simp_all [AttrsList.add_span]

/-- Below a split index `k`, folding coverage over the clipped prefix spans
agrees with folding it over the original spans. -/
theorem foldl_pickAt_clip_low (k i : Nat) (hik : i < k) (xs : List Span) :
    ∀ acc, (xs.filterMap fun sp =>
      if sp.start < k then some (⟨sp.start, min sp.stop k, sp.attrs⟩ : Span)
      else none).foldl (pickAt i) acc = xs.foldl (pickAt i) acc := by
  induction xs with
  | nil => intro acc; rfl
  | cons x xs ih =>
    intro acc
    by_cases hx : x.start < k
    · simp only [List.filterMap_cons, if_pos hx, List.foldl_cons]
      rw [ih]
      have hpick : pickAt i acc ⟨x.start, min x.stop k, x.attrs⟩ = pickAt i acc x := by
        unfold pickAt
        dsimp only
        exact if_congr (by omega) rfl rfl
      rw [hpick]
    · simp only [List.filterMap_cons, if_neg hx, List.foldl_cons]
      rw [ih]
      have hpick : pickAt i acc x = acc := by
        unfold pickAt
        rw [if_neg (by omega)]
      rw [hpick]

/-- Below a split index `k`, the rebased-then-shifted suffix spans cover
nothing, so folding coverage over them is the identity. -/
theorem foldl_pickAt_shift_low (k i : Nat) (hik : i < k) (xs : List Span) :
    ∀ acc, ((xs.filterMap fun sp =>
      if k < sp.stop then some (⟨sp.start - k, sp.stop - k, sp.attrs⟩ : Span)
      else none).map (shiftSpan k)).foldl (pickAt i) acc = acc := by
  induction xs with
  | nil => intro acc; rfl
  | cons x xs ih =>
    intro acc
    by_cases hx : k < x.stop
    · simp only [List.filterMap_cons, if_pos hx, List.map_cons, List.foldl_cons]
      rw [ih]
      unfold pickAt shiftSpan
      exact if_neg (by simp; omega)
    · simp only [List.filterMap_cons, if_neg hx]
      exact ih acc

/-- At or above a split index `k`, the clipped prefix spans cover nothing,
so folding coverage over them is the identity. -/
theorem foldl_pickAt_clip_high (k i : Nat) (hik : k ≤ i) (xs : List Span) :
    ∀ acc, (xs.filterMap fun sp =>
      if sp.start < k then some (⟨sp.start, min sp.stop k, sp.attrs⟩ : Span)
      else none).foldl (pickAt i) acc = acc := by
  induction xs with
  | nil => intro acc; rfl
  | cons x xs ih =>
    intro acc
    by_cases hx : x.start < k
    · simp only [List.filterMap_cons, if_pos hx, List.foldl_cons]
      rw [ih]
      unfold pickAt
      exact if_neg (by simp; omega)
    · simp only [List.filterMap_cons, if_neg hx]
      exact ih acc

/-- At or above a split index `k`, folding coverage over the
rebased-then-shifted suffix spans agrees with folding it over the original
spans. -/
theorem foldl_pickAt_shift_high (k i : Nat) (hik : k ≤ i) (xs : List Span) :
    ∀ acc, ((xs.filterMap fun sp =>
      if k < sp.stop then some (⟨sp.start - k, sp.stop - k, sp.attrs⟩ : Span)
      else none).map (shiftSpan k)).foldl (pickAt i) acc = xs.foldl (pickAt i) acc := by
  induction xs with
  | nil => intro acc; rfl
  | cons x xs ih =>
    intro acc
    by_cases hx : k < x.stop
    · simp only [List.filterMap_cons, if_pos hx, List.map_cons, List.foldl_cons]
      rw [ih]
      have hpick : pickAt i acc (shiftSpan k ⟨x.start - k, x.stop - k, x.attrs⟩)
          = pickAt i acc x := by
        unfold pickAt shiftSpan
        exact if_congr (by simp; omega) rfl rfl
      rw [hpick]
    · simp only [List.filterMap_cons, if_neg hx, List.foldl_cons]
      rw [ih]
      have hpick : pickAt i acc x = acc := by
        unfold pickAt
        rw [if_neg (by omega)]
      rw [hpick]

/-- Claim C7: splitting a line at a valid index `k` and appending the
returned suffix back onto the prefix reproduces the original text and an
attribute coverage pointwise equal to the original one. -/
theorem c7_split_append_roundtrip (l : BufferLine) (k : Nat)
    (h : k ≤ l.text.length) (i : Nat) :
    ((l.split_off k).1.append (l.split_off k).2).text = l.text ∧
    ((l.split_off k).1.append (l.split_off k).2).attrs_list.attrsAt i
      = l.attrs_list.attrsAt i := by
  constructor
  · show (l.text.take k ++ l.text.drop k) = l.text
    exact List.take_append_drop k l.text
  · rw [append_attrs_spec]
    have hd : (l.split_off k).2.attrs_list.defaults
        = (l.split_off k).1.attrs_list.defaults := rfl
    rw [if_pos hd]
    have hlen : (l.split_off k).1.text.length = k := by
      show (l.text.take k).length = k
      rw [List.length_take]
      omega
    rw [hlen, attrsAt_eq_foldl, attrsAt_eq_foldl]
    show ((l.attrs_list.split_off k).1.spans ++
        ((l.attrs_list.split_off k).2.spans).map (shiftSpan k)).foldl (pickAt i)
        (l.attrs_list.split_off k).1.defaults
      = l.attrs_list.spans.foldl (pickAt i) l.attrs_list.defaults
    simp only [AttrsList.split_off, List.foldl_append]
    rcases Nat.lt_or_ge i k with hik | hik
    · rw [foldl_pickAt_shift_low k i hik, foldl_pickAt_clip_low k i hik]
    · rw [foldl_pickAt_clip_high k i hik, foldl_pickAt_shift_high k i hik]

/-- Claim C7 witness: the concrete line `lineC`, whose single span crosses
the split index 1, round-trips through `split_off` and `append` at
positions on both sides of the split. -/
theorem c7_split_append_roundtrip_witness :
    1 ≤ lineC.text.length ∧
    ((lineC.split_off 1).1.append (lineC.split_off 1).2).text = lineC.text ∧
    ((lineC.split_off 1).1.append (lineC.split_off 1).2).attrs_list.attrsAt 0
      = lineC.attrs_list.attrsAt 0 ∧
    ((lineC.split_off 1).1.append (lineC.split_off 1).2).attrs_list.attrsAt 2
      = lineC.attrs_list.attrsAt 2 :=
  ⟨by decide,
   (c7_split_append_roundtrip lineC 1 (by decide) 0).1,
   (c7_split_append_roundtrip lineC 1 (by decide) 0).2,
   (c7_split_append_roundtrip lineC 1 (by decide) 2).2⟩

end CosmicText
